import Mathlib

/-!
Shallow embedding of the continuous-learning / MLOps core of the
tire-monitor-dashboard repository:

* `src/lib/ml/continuous-learning.ts` — the `ContinuousLearningSystem`
  class (photo capture, user feedback, retraining trigger, stats);
* `src/lib/ml/ml-service.ts` — the `MLService` class (`analyzeTireImage`,
  `mockAnalysis` and its generators);
* `scripts/train-models.js` — the `ModelServer.analyzeTireImage` inference
  handler (clamping, argmax classification);
* `scripts/evaluate-models.js` — `calculatePrecision` / `calculateRecall`
  over a confusion matrix;
* `scripts/mlops-pipeline.js` — `runFullPipeline` and its per-phase
  error handling;
* the user-feedback API route (`POST` handler validating ratings).

Filesystem state (the labels/ and images/ directories) is modelled as
association lists from file name to content; timestamps (`Date.now()`)
and random draws (`Math.random()`) are passed in as explicit arguments;
JavaScript numbers are modelled as rationals; JavaScript truthiness of
the values the code branches on is made explicit.
-/

namespace TireMonitor

/-- JavaScript truthiness of an optional number: `undefined`, `null` and
`0` are falsy, every other number is truthy. -/
def jsTruthyNum (x : Option ℚ) : Bool :=
  match x with
  | none => false
  | some v => v != 0

/-- JavaScript truthiness of an optional string: `undefined`, `null` and
the empty string are falsy. -/
def jsTruthyStr (x : Option String) : Bool :=
  match x with
  | none => false
  | some s => s != ""

/-- JavaScript truthiness of an optional boolean: `undefined` and `false`
are falsy. -/
def jsTruthyBool (x : Option Bool) : Bool :=
  match x with
  | none => false
  | some b => b

/-- JavaScript `Math.round`: round half away from zero for nonnegative
arguments (round half up), i.e. `⌊x + 1/2⌋`. -/
def jsRound (x : ℚ) : ℤ := ⌊x + 1/2⌋

/-- JavaScript `String.prototype.endsWith`, as a suffix test on the
character sequences. -/
def strEndsWith (s suf : String) : Bool := List.isSuffixOf suf.data s.data

/-! ## Data model of `continuous-learning.ts` -/

/-- The `labels` field of a `TrainingSample` (all keys optional). -/
structure SampleLabels where
  treadDepth : Option ℚ := none
  condition : Option String := none
  wearPattern : Option String := none
  confidence : Option ℚ := none
  deriving Repr, DecidableEq

/-- The `metadata` field of a `TrainingSample`. -/
structure SampleMetadata where
  capturedAt : String := ""
  lighting : String := "unknown"
  angle : String := "unknown"
  deriving Repr, DecidableEq

/-- The `corrections` payload read by `onUserFeedback`: the code only
inspects the `actualTreadDepth` and `actualCondition` keys. -/
structure Corrections where
  actualTreadDepth : Option ℚ := none
  actualCondition : Option String := none
  deriving Repr, DecidableEq

/-- A training sample as serialised to a label JSON file, including the
fields added later by `onUserFeedback` (`userRating`, `userCorrections`,
`expertValidation`, `feedbackProvidedAt`). -/
structure TrainingSample where
  id : String
  imagePath : String
  tireId : String
  vehicleId : String
  userRating : Option ℚ := none
  userCorrections : Option Corrections := none
  expertValidation : Option Bool := none
  feedbackProvidedAt : Option String := none
  labels : SampleLabels := {}
  metadata : SampleMetadata := {}
  deriving Repr, DecidableEq

/-- Dimensions of a stored image file (the capture path resizes every
image to 224×224 before writing it). -/
structure ImageMeta where
  width : Nat
  height : Nat
  deriving Repr, DecidableEq

/-- The configuration constants of `ContinuousLearningSystem`
(`minSamplesForRetrain = 50`, `retrainInterval = 24h` in ms). -/
structure CLConfig where
  minSamplesForRetrain : Nat
  retrainInterval : ℤ
  deriving Repr, DecidableEq

/-- The default configuration values from the class initialisers. -/
def defaultCLConfig : CLConfig :=
  { minSamplesForRetrain := 50, retrainInterval := 24 * 60 * 60 * 1000 }

/-- The mutable state of the continuous-learning system: the labels/
directory (file name ↦ sample JSON), the images/ directory (file name ↦
stored image dimensions), the retraining-jobs/ directory (job file
names), and the `lastRetrain` timestamp. -/
structure CLState where
  labels : List (String × TrainingSample)
  images : List (String × ImageMeta)
  jobs : List String
  lastRetrain : ℤ
  deriving Repr, DecidableEq

/-- The empty sample store with `lastRetrain = 0` (the constructor's
initial state). -/
def emptyCLState : CLState :=
  { labels := [], images := [], jobs := [], lastRetrain := 0 }

/-- `checkRetrainingTrigger`'s sample count: the number of files in the
labels directory whose name ends in `.json`. -/
def sampleCount (st : CLState) : Nat :=
  (st.labels.filter (fun p => strEndsWith p.1 ".json")).length

/-- `ContinuousLearningSystem.checkRetrainingTrigger(forceCheck)`:
returns early when not forced and the cooldown has not elapsed;
otherwise counts samples and, if the count reaches
`minSamplesForRetrain`, invokes `triggerRetraining` (which records a
retraining job) and sets `lastRetrain = now`. The boolean result records
whether training was invoked. -/
def checkRetrainingTrigger (cfg : CLConfig) (st : CLState) (now : ℤ)
    (forceCheck : Bool) : CLState × Bool :=
  if forceCheck = false ∧ now - st.lastRetrain < cfg.retrainInterval then
    (st, false)
  else if cfg.minSamplesForRetrain ≤ sampleCount st then
    ({ st with
        lastRetrain := now,
        jobs := st.jobs ++ ["retrain_" ++ toString now ++ ".json"] }, true)
  else
    (st, false)

/-- Claim C1: `checkRetrainingTrigger` requests retraining exactly when
both the cooldown condition (waived by `force = true`) and the volume
condition hold; in particular an unforced call below the volume
threshold never trains, and a forced call within the cooldown window
trains once the volume threshold is met. -/
theorem checkRetrainingTrigger_requests_iff (cfg : CLConfig) (st : CLState)
    (now : ℤ) (force : Bool) :
    (checkRetrainingTrigger cfg st now force).2 = true ↔
      ((force = true ∨ cfg.retrainInterval ≤ now - st.lastRetrain) ∧
        cfg.minSamplesForRetrain ≤ sampleCount st) := by
  unfold checkRetrainingTrigger
  split_ifs with h1 h2
  · obtain ⟨hf, hlt⟩ := h1
    subst hf
    simp only [Bool.false_eq_true, false_or]
    constructor
    · intro h
      exact h.elim
    · rintro ⟨hle, _⟩
      omega
  · simp only [true_iff]
    refine ⟨?_, h2⟩
    rcases Classical.em (force = true) with hf | hf
    · exact Or.inl hf
    · have hf' : force = false := by
        cases force
        · rfl
        · exact absurd rfl hf
      right
      by_contra hlt
      exact h1 ⟨hf', by omega⟩
  · simp only [Bool.false_eq_true, false_iff]
    rintro ⟨_, hc⟩
    exact h2 hc

/-! ## `onUserFeedback` and the feedback API route -/

/-- The corrections block of `onUserFeedback`: each recognised key is
applied (and `expertValidation` set) only when its value is truthy in
JavaScript (`if (corrections.actualTreadDepth) … if
(corrections.actualCondition) …`). -/
def applyCorrections (c : Corrections) (s : TrainingSample) : TrainingSample :=
  let s1 :=
    if jsTruthyNum c.actualTreadDepth then
      { s with labels := { s.labels with treadDepth := c.actualTreadDepth },
               expertValidation := some true }
    else s
  if jsTruthyStr c.actualCondition then
    { s1 with labels := { s1.labels with condition := c.actualCondition },
              expertValidation := some true }
  else s1

/-- Reading a file from a directory listing (file name ↦ content):
`none` models a read that throws `ENOENT`. -/
def fsRead {α : Type} (k : String) : List (String × α) → Option α
  | [] => none
  | (a, b) :: tl => if a = k then some b else fsRead k tl

/-- Overwriting the file named `k` with content `v`: every entry under
that name is replaced, nothing else changes. -/
def fsWrite {α : Type} (k : String) (v : α) : List (String × α) →
    List (String × α)
  | [] => []
  | (a, b) :: tl =>
      if a = k then (a, v) :: fsWrite k v tl else (a, b) :: fsWrite k v tl

/-- `ContinuousLearningSystem.onUserFeedback(tireId, sampleId, userRating,
corrections)`: loads the sample's label file (a read failure is caught and
the call becomes a no-op), records the rating, corrections and feedback
timestamp, applies corrections, rewrites the file, and — when
`userRating >= 4 || corrections` — runs `checkRetrainingTrigger(true)`.
Returns the new state, whether a forced trigger check ran, and whether
retraining was invoked. -/
def onUserFeedback (cfg : CLConfig) (st : CLState) (now : ℤ) (nowIso : String)
    (sampleId : String) (userRating : ℚ) (corrections : Option Corrections) :
    CLState × Bool × Bool :=
  match fsRead (sampleId ++ ".json") st.labels with
  | none => (st, false, false)
  | some s =>
    let s1 := { s with userRating := some userRating,
                       userCorrections := corrections,
                       feedbackProvidedAt := some nowIso }
    let s2 := match corrections with
      | none => s1
      | some c => applyCorrections c s1
    let st1 := { st with labels := fsWrite (sampleId ++ ".json") s2 st.labels }
    if 4 ≤ userRating ∨ corrections.isSome = true then
      ((checkRetrainingTrigger cfg st1 now true).1, true,
        (checkRetrainingTrigger cfg st1 now true).2)
    else
      (st1, false, false)

/-- Request body of the user-feedback `POST` route. -/
structure FeedbackBody where
  tireId : Option String := none
  sampleId : Option String := none
  userRating : Option ℚ := none
  corrections : Option Corrections := none

/-- An HTTP JSON response of the feedback route: a status code and the
`error` field of the body (absent on success). -/
structure ApiResponse where
  status : Nat
  errorMsg : Option String
  deriving Repr, DecidableEq

/-- The user-feedback API `POST` handler: 400 if `tireId`, `sampleId` or
`userRating` is missing; 400 if `userRating` is outside `[1, 5]`;
otherwise forwards to `onUserFeedback` and answers 200. -/
def feedbackPOST (cfg : CLConfig) (st : CLState) (now : ℤ) (nowIso : String)
    (body : FeedbackBody) : ApiResponse × CLState :=
  if jsTruthyStr body.tireId = false ∨ jsTruthyStr body.sampleId = false ∨
      body.userRating = none then
    ({ status := 400,
       errorMsg := some "tireId, sampleId, and userRating are required" }, st)
  else
    match body.userRating with
    | none =>
        ({ status := 400,
           errorMsg := some "tireId, sampleId, and userRating are required" }, st)
    | some r =>
      if r < 1 ∨ 5 < r then
        ({ status := 400,
           errorMsg := some "userRating must be between 1 and 5" }, st)
      else
        let res := onUserFeedback cfg st now nowIso (body.sampleId.getD "") r
          body.corrections
        ({ status := 200, errorMsg := none }, res.1)

/-! ### Helper lemmas about the feedback path -/

/-- Reading back a file just overwritten returns the new content,
provided the file existed. -/
theorem fsRead_fsWrite {α : Type} (v' : α) (l : List (String × α)) (k : String)
    (h : (fsRead k l).isSome = true) :
    fsRead k (fsWrite k v' l) = some v' := by
  induction l with
  | nil => simp [fsRead] at h
  | cons hd tl ih =>
      obtain ⟨a, b⟩ := hd
      by_cases ha : a = k
      · subst ha
        simp [fsWrite, fsRead]
      · have h' : (fsRead k tl).isSome = true := by
          simpa [fsRead, ha] using h
        simpa [fsWrite, fsRead, ha] using ih h'

/-- Overwriting a file changes no file names, so the `.json` sample
count is preserved. -/
theorem length_filter_fsWrite {α : Type} (v' : α) (k : String)
    (l : List (String × α)) :
    ((fsWrite k v' l).filter (fun p => strEndsWith p.1 ".json")).length =
      (l.filter (fun p => strEndsWith p.1 ".json")).length := by
  induction l with
  | nil => rfl
  | cons hd tl ih =>
      obtain ⟨a, b⟩ := hd
      by_cases ha : a = k
      · subst ha
        by_cases he : strEndsWith a ".json" <;> simp_all [fsWrite, List.filter_cons]
      · by_cases he : strEndsWith a ".json" <;> simp_all [fsWrite, List.filter_cons]

/-- `checkRetrainingTrigger` never touches the labels directory. -/
theorem checkRetrainingTrigger_labels (cfg : CLConfig) (st : CLState)
    (now : ℤ) (f : Bool) :
    ((checkRetrainingTrigger cfg st now f).1).labels = st.labels := by
  unfold checkRetrainingTrigger
  split_ifs <;> rfl

/-- A forced `checkRetrainingTrigger` call invokes training exactly when
the volume threshold is met, regardless of elapsed time. -/
theorem checkRetrainingTrigger_force_snd (cfg : CLConfig) (st : CLState)
    (now : ℤ) :
    ((checkRetrainingTrigger cfg st now true).2 = true ↔
      cfg.minSamplesForRetrain ≤ sampleCount st) := by
  unfold checkRetrainingTrigger
  have h1 : ¬((true : Bool) = false ∧ now - st.lastRetrain < cfg.retrainInterval) := by
    rintro ⟨h, -⟩
    cases h
  rw [if_neg h1]
  split_ifs with h2
  · simp [h2]
  · simp [h2]

/-- The state produced by `onUserFeedback` keeps the same sample count
(only an existing label file is rewritten). -/
theorem onUserFeedback_sampleCount (cfg : CLConfig) (st : CLState) (now : ℤ)
    (nowIso : String) (sampleId : String) (r : ℚ) (c : Option Corrections) :
    sampleCount (onUserFeedback cfg st now nowIso sampleId r c).1 = sampleCount st := by
  unfold onUserFeedback
  cases hl : fsRead (sampleId ++ ".json") st.labels with
  | none => rfl
  | some s =>
      simp only
      split_ifs with hf
      · unfold sampleCount
        rw [checkRetrainingTrigger_labels]
        exact length_filter_fsWrite _ _ st.labels
      · unfold sampleCount
        exact length_filter_fsWrite _ _ st.labels

/-! ### Claim C3: out-of-range ratings are rejected without touching state -/

/-- Claim C3: a feedback call whose rating lies outside `[1, 5]` answers
400 with the validation message and leaves the sample store — hence
every stored sample's label file — completely unchanged. -/
theorem feedbackPOST_bad_rating_rejected (cfg : CLConfig) (st : CLState)
    (now : ℤ) (nowIso : String) (body : FeedbackBody) (r : ℚ)
    (ht : jsTruthyStr body.tireId = true) (hs : jsTruthyStr body.sampleId = true)
    (hr : body.userRating = some r) (hout : r < 1 ∨ 5 < r) :
    feedbackPOST cfg st now nowIso body =
      ({ status := 400,
         errorMsg := some "userRating must be between 1 and 5" }, st) := by
  unfold feedbackPOST
  have h1 : ¬(jsTruthyStr body.tireId = false ∨ jsTruthyStr body.sampleId = false ∨
      body.userRating = none) := by
    simp [ht, hs, hr]
  rw [if_neg h1, hr]
  simp only
  rw [if_pos hout]

/-- Concrete feedback request with rating 7 for the C3 witness. -/
def c3Body : FeedbackBody :=
  { tireId := some "tire-1", sampleId := some "sample-1", userRating := some 7 }

/-- Witness for C3 at rating 7 on the empty store. -/
theorem feedbackPOST_bad_rating_rejected_witness :
    (jsTruthyStr c3Body.tireId = true ∧ jsTruthyStr c3Body.sampleId = true ∧
      c3Body.userRating = some 7 ∧ ((7 : ℚ) < 1 ∨ 5 < (7 : ℚ))) ∧
    feedbackPOST defaultCLConfig emptyCLState 0 "t0" c3Body =
      ({ status := 400,
         errorMsg := some "userRating must be between 1 and 5" }, emptyCLState) :=
  ⟨⟨rfl, rfl, rfl, by decide⟩,
    feedbackPOST_bad_rating_rejected defaultCLConfig emptyCLState 0 "t0" c3Body 7
      rfl rfl rfl (by decide)⟩

/-! ### Claim C8: high-confidence feedback forces a trigger re-check -/

/-- Claim C8: on an existing sample, `onUserFeedback` forces a
retraining-trigger re-check exactly when the rating is at least 4 or
corrections are present; and a forced re-check bypasses the cooldown —
it invokes training exactly when the volume threshold is met. -/
theorem onUserFeedback_high_confidence_forces (cfg : CLConfig) (st : CLState)
    (now : ℤ) (nowIso : String) (sampleId : String) (r : ℚ)
    (c : Option Corrections)
    (h : (fsRead (sampleId ++ ".json") st.labels).isSome = true) :
    ((onUserFeedback cfg st now nowIso sampleId r c).2.1 = true ↔
        (4 ≤ r ∨ c.isSome = true)) ∧
      ((4 ≤ r ∨ c.isSome = true) →
        ((onUserFeedback cfg st now nowIso sampleId r c).2.2 = true ↔
          cfg.minSamplesForRetrain ≤ sampleCount st)) := by
  obtain ⟨s, hl⟩ := Option.isSome_iff_exists.mp h
  unfold onUserFeedback
  rw [hl]
  simp only
  split_ifs with hf
  · refine ⟨by simp [hf], fun _ => ?_⟩
    rw [checkRetrainingTrigger_force_snd]
    simp [sampleCount, length_filter_fsWrite]
  · exact ⟨by simp [hf], fun h' => absurd h' hf⟩

/-- A stored sample used by concrete feedback scenarios. -/
def wSample : TrainingSample :=
  { id := "s0", imagePath := "images/s0.jpg", tireId := "t1", vehicleId := "v1",
    labels := { treadDepth := some 5 } }

/-- A store holding exactly the one sample `wSample`. -/
def c8State : CLState :=
  { labels := [("s0.json", wSample)], images := [("s0.jpg", ⟨224, 224⟩)],
    jobs := [], lastRetrain := 0 }

/-- Witness for C8: rating 5 with no corrections on an existing sample. -/
theorem onUserFeedback_high_confidence_forces_witness :
    ((fsRead ("s0" ++ ".json") c8State.labels).isSome = true) ∧
    (((onUserFeedback defaultCLConfig c8State 999 "t" "s0" 5 none).2.1 = true ↔
        (4 ≤ (5 : ℚ) ∨ (none : Option Corrections).isSome = true)) ∧
      ((4 ≤ (5 : ℚ) ∨ (none : Option Corrections).isSome = true) →
        ((onUserFeedback defaultCLConfig c8State 999 "t" "s0" 5 none).2.2 = true ↔
          defaultCLConfig.minSamplesForRetrain ≤ sampleCount c8State))) :=
  ⟨rfl, onUserFeedback_high_confidence_forces defaultCLConfig c8State 999 "t"
    "s0" 5 none rfl⟩

/-! ### Claim C4: corrections and `expertValidation` -/

/-- The sample a feedback call with corrections acts on (the claim's
concluding lookup). -/
def storedAfterFeedback (cfg : CLConfig) (st : CLState) (now : ℤ)
    (nowIso : String) (sampleId : String) (r : ℚ)
    (c : Option Corrections) : Option TrainingSample :=
  fsRead (sampleId ++ ".json")
    ((onUserFeedback cfg st now nowIso sampleId r c).1.labels)

/-- Store for the C4 scenarios: one sample with tread depth 5 and no
expert validation. -/
def c4State : CLState :=
  { labels := [("s1.json",
      { id := "s1", imagePath := "images/s1.jpg", tireId := "t1",
        vehicleId := "v1", labels := { treadDepth := some 5 } })],
    images := [("s1.jpg", ⟨224, 224⟩)], jobs := [], lastRetrain := 0 }

/-- A non-empty corrections mapping whose supplied tread depth is `0`
(falsy in JavaScript). -/
def c4Corrections : Corrections := { actualTreadDepth := some 0 }

/-- The sample stored after submitting `c4Corrections` with rating 3. -/
def c4Stored : Option TrainingSample :=
  storedAfterFeedback defaultCLConfig c4State 0 "t" "s1" 3 (some c4Corrections)

/-- Counterexample to C4: the non-empty corrections mapping
`{actualTreadDepth: 0}` is recorded, yet the stored sample keeps
`expertValidation` unset (not `true`) and keeps tread depth 5 — the
supplied corrected value 0 is not applied, because the code tests the
correction value for JavaScript truthiness rather than presence. -/
theorem onUserFeedback_corrections_cex :
    c4Corrections.actualTreadDepth = some 0 ∧
    c4Stored.map (fun s => s.userCorrections) = some (some c4Corrections) ∧
    c4Stored.map (fun s => s.expertValidation) = some none ∧
    c4Stored.map (fun s => s.labels.treadDepth) = some (some 5) ∧
    c4Stored.map (fun s => s.expertValidation) ≠ some (some true) ∧
    c4Stored.map (fun s => s.labels.treadDepth) ≠ some (some 0) := by
  refine ⟨rfl, rfl, rfl, rfl, ?_, ?_⟩ <;> decide

/-- Claim C4 as amended: on an existing sample, a feedback call with
corrections sets `expertValidation = true` iff a recognised correction
field is supplied and truthy (`actualTreadDepth` present and nonzero, or
`actualCondition` present and non-empty); each truthy supplied field's
stored value equals the supplied value, and each falsy or absent field
leaves the stored value unchanged. -/
theorem onUserFeedback_corrections_amended (cfg : CLConfig) (st : CLState)
    (now : ℤ) (nowIso : String) (sampleId : String) (r : ℚ) (c : Corrections)
    (s : TrainingSample)
    (h : fsRead (sampleId ++ ".json") st.labels = some s) :
    (storedAfterFeedback cfg st now nowIso sampleId r (some c)).map
        (fun s2 => s2.expertValidation) =
      some (if (jsTruthyNum c.actualTreadDepth || jsTruthyStr c.actualCondition)
              = true then some true else s.expertValidation) ∧
    (jsTruthyNum c.actualTreadDepth = true →
      (storedAfterFeedback cfg st now nowIso sampleId r (some c)).map
        (fun s2 => s2.labels.treadDepth) = some c.actualTreadDepth) ∧
    (jsTruthyNum c.actualTreadDepth = false →
      (storedAfterFeedback cfg st now nowIso sampleId r (some c)).map
        (fun s2 => s2.labels.treadDepth) = some s.labels.treadDepth) ∧
    (jsTruthyStr c.actualCondition = true →
      (storedAfterFeedback cfg st now nowIso sampleId r (some c)).map
        (fun s2 => s2.labels.condition) = some c.actualCondition) ∧
    (jsTruthyStr c.actualCondition = false →
      (storedAfterFeedback cfg st now nowIso sampleId r (some c)).map
        (fun s2 => s2.labels.condition) = some s.labels.condition) := by
  have hiss : (fsRead (sampleId ++ ".json") st.labels).isSome = true := by
    rw [h]; rfl
  have hread : storedAfterFeedback cfg st now nowIso sampleId r (some c) =
      some (applyCorrections c
        { s with userRating := some r, userCorrections := some c,
                 feedbackProvidedAt := some nowIso }) := by
    unfold storedAfterFeedback onUserFeedback
    rw [h]
    simp only
    rw [if_pos (show (4 ≤ r ∨ (some c).isSome = true) from Or.inr rfl)]
    simp only [checkRetrainingTrigger_labels]
    exact fsRead_fsWrite _ _ _ hiss
  rw [hread]
  by_cases h1 : jsTruthyNum c.actualTreadDepth <;>
    by_cases h2 : jsTruthyStr c.actualCondition <;>
      simp [applyCorrections, h1, h2]

/-- Truthy corrections used by the C4 amended witness. -/
def c4wCorrections : Corrections :=
  { actualTreadDepth := some 6, actualCondition := some "poor" }

/-- Witness for the amended C4: truthy corrections (depth 6, condition
"poor") are applied and set `expertValidation = true`. -/
theorem onUserFeedback_corrections_amended_witness :
    fsRead ("s1" ++ ".json") c4State.labels =
      some { id := "s1", imagePath := "images/s1.jpg", tireId := "t1",
             vehicleId := "v1", labels := { treadDepth := some 5 } } ∧
    (storedAfterFeedback defaultCLConfig c4State 0 "t" "s1" 5
        (some c4wCorrections)).map (fun s2 => s2.expertValidation) =
      some (some true) ∧
    (storedAfterFeedback defaultCLConfig c4State 0 "t" "s1" 5
        (some c4wCorrections)).map (fun s2 => s2.labels.treadDepth) =
      some (some 6) ∧
    (storedAfterFeedback defaultCLConfig c4State 0 "t" "s1" 5
        (some c4wCorrections)).map (fun s2 => s2.labels.condition) =
      some (some "poor") := by
  have hthm := onUserFeedback_corrections_amended defaultCLConfig c4State 0 "t"
    "s1" 5 c4wCorrections
    { id := "s1", imagePath := "images/s1.jpg", tireId := "t1",
      vehicleId := "v1", labels := { treadDepth := some 5 } } rfl
  refine ⟨rfl, ?_, ?_, ?_⟩
  · simpa using hthm.1
  · simpa using hthm.2.1 rfl
  · simpa using hthm.2.2.2.1 rfl

/-! ## Data model of `ml-service.ts` (`TireAnalysisResult`) -/

/-- The `treadDepth` part of a `TireAnalysisResult`. -/
structure TreadDepthResult where
  value : ℚ
  unit : String
  confidence : ℚ
  deriving Repr, DecidableEq

/-- The `condition` part: label, its confidence, and the per-label score
mapping. -/
structure ConditionResult where
  label : String
  confidence : ℚ
  scores : List (String × ℚ)
  deriving Repr, DecidableEq

/-- The `wearPattern` part. -/
structure WearPatternResult where
  pattern : String
  confidence : ℚ
  severity : String
  deriving Repr, DecidableEq

/-- The `metadata` part. -/
structure AnalysisMetadata where
  analyzedAt : String
  imageSize : Nat
  processingTime : ℚ
  deriving Repr, DecidableEq

/-- The full analysis result returned by `analyzeTireImage`. -/
structure TireAnalysisResult where
  treadDepth : TreadDepthResult
  condition : ConditionResult
  wearPattern : WearPatternResult
  metadata : AnalysisMetadata
  deriving Repr, DecidableEq

/-- The fixed label set of the condition classifier. -/
def conditionLabels : List String :=
  ["excellent", "good", "fair", "poor", "critical"]

/-- The label at a given index. -/
def condLabel (i : Fin 5) : String := conditionLabels.getD i.val ""

/-! ## `mockAnalysis` (`ml-service.ts`) -/

/-- The random draws consumed by one `mockAnalysis` call, one field per
`Math.random()` site. -/
structure MockRng where
  condIndex : Fin 5
  condRand : Fin 5 → ℚ
  treadRand : ℚ
  treadConfRand : ℚ
  wearIndex : Fin 4
  wearConfRand : ℚ
  sevIndex : Fin 3

/-- `generateMockCondition`'s raw (pre-normalisation) score of label `i`
when label `idx` was drawn: `0.6 + rand*0.3` for the drawn label,
`rand*0.2` otherwise. -/
def rawCondScore (idx : Fin 5) (rand : Fin 5 → ℚ) (i : Fin 5) : ℚ :=
  if i = idx then 0.6 + rand i * 0.3 else rand i * 0.2

/-- The raw mock score object (label ↦ raw score, in label order). -/
def mockRawScores (idx : Fin 5) (rand : Fin 5 → ℚ) : List (String × ℚ) :=
  (List.finRange 5).map (fun i => (condLabel i, rawCondScore idx rand i))

/-- `MLService.generateMockCondition`: draw a label, give it a raw score
in `[0.6, 0.9)` and the others raw scores in `[0, 0.2)`, normalise the
score object by its total, and report the drawn label with its
normalised score as confidence. -/
def generateMockCondition (idx : Fin 5) (rand : Fin 5 → ℚ) : ConditionResult :=
  let raw := mockRawScores idx rand
  let total := (raw.map Prod.snd).sum
  let scores := raw.map (fun p => (p.1, p.2 / total))
  { label := condLabel idx,
    confidence := (fsRead (condLabel idx) scores).getD 0,
    scores := scores }

/-- `MLService.generateMockTreadDepth`:
`Math.round((1 + Math.random() * 9) * 100) / 100`. -/
def generateMockTreadDepth (r : ℚ) : ℚ :=
  (jsRound ((1 + r * 9) * 100) : ℚ) / 100

/-- The wear-pattern label set. -/
def wearPatterns : List String := ["uniform", "inner", "outer", "random"]

/-- The wear-severity label set. -/
def wearSeverities : List String := ["low", "medium", "high"]

/-- `MLService.generateWearPattern`: random pattern, confidence in
`[0.7, 0.95)`, random severity. -/
def generateWearPattern (widx : Fin 4) (confRand : ℚ) (sidx : Fin 3) :
    WearPatternResult :=
  { pattern := wearPatterns.getD widx.val "",
    confidence := 0.7 + confRand * 0.25,
    severity := wearSeverities.getD sidx.val "" }

/-- `MLService.mockAnalysis`: the fallback analysis built entirely from
random draws; every field of the result is populated. -/
def mockAnalysis (rng : MockRng) (imageSize : Nat) (nowIso : String) :
    TireAnalysisResult :=
  { treadDepth :=
      { value := generateMockTreadDepth rng.treadRand,
        unit := "mm",
        confidence := 0.75 + rng.treadConfRand * 0.2 },
    condition := generateMockCondition rng.condIndex rng.condRand,
    wearPattern :=
      generateWearPattern rng.wearIndex rng.wearConfRand rng.sevIndex,
    metadata :=
      { analyzedAt := nowIso, imageSize := imageSize,
        processingTime := 1000 } }

/-! ## `ModelServer.analyzeTireImage` (`scripts/train-models.js`) -/

/-- JavaScript `Math.max(...arr)` on a non-empty array (0 for the empty
array, which the call sites never hit). -/
def jsMaxList (l : List ℚ) : ℚ :=
  match l with
  | [] => 0
  | x :: xs => xs.foldl max x

/-- JavaScript `Array.prototype.indexOf`: index of the first occurrence. -/
def jsIndexOf (l : List ℚ) (x : ℚ) : Nat := l.findIdx (fun y => y == x)

/-- The condition block of `ModelServer.analyzeTireImage`: take the raw
classifier output vector (`dataSync()`), find the max and its first
index, and report that label, that score, and the label↦score object. -/
def serverCondition (raw : Fin 5 → ℚ) : ConditionResult :=
  let conditionScores := List.ofFn raw
  let maxIndex := jsIndexOf conditionScores (jsMaxList conditionScores)
  { label := conditionLabels.getD maxIndex "",
    confidence := conditionScores.getD maxIndex 0,
    scores := (List.finRange 5).map
      (fun i => (condLabel i, conditionScores.getD i.val 0)) }

/-- The tread-depth block of `ModelServer.analyzeTireImage`:
`Math.max(0, Math.min(10, treadDepth))` with placeholder confidence. -/
def serverTreadDepth (raw : ℚ) : TreadDepthResult :=
  { value := max 0 (min 10 raw), unit := "mm", confidence := 0.85 }

/-- The raw model outputs available to the server: `none` models a model
that is not loaded (its result block is then absent). -/
structure ServerModelOut where
  treadDepthOut : Option ℚ
  conditionOut : Option (Fin 5 → ℚ)

/-- The `results` object assembled by `ModelServer.analyzeTireImage`:
each block present iff its model is loaded. -/
structure ServerAnalysis where
  treadDepth : Option TreadDepthResult
  condition : Option ConditionResult
  analyzedAt : String
  imageSize : Nat

/-- `ModelServer.analyzeTireImage` on a successfully preprocessed
image. -/
def serverAnalyzeTireImage (out : ServerModelOut) (imageSize : Nat)
    (nowIso : String) : ServerAnalysis :=
  { treadDepth := out.treadDepthOut.map serverTreadDepth,
    condition := out.conditionOut.map serverCondition,
    analyzedAt := nowIso, imageSize := imageSize }

/-! ## `MLService.analyzeTireImage` (`ml-service.ts`) -/

/-- `MLService.analyzeTireImage`: preprocess (a preprocessing failure is
rethrown as an analysis error), then delegate to the ML server when its
liveness probe succeeds (a server error is rethrown), and otherwise fall
back to `mockAnalysis`. `serverUp` is the result of
`isMLServerAvailable()` (false when the probe fails or times out);
`serverResp` is the mapped response of a reachable server (`none` models
a failed `/analyze` request). -/
def mlAnalyzeTireImage (preprocessOk : Bool) (serverUp : Bool)
    (serverResp : Option TireAnalysisResult) (rng : MockRng)
    (imageSize : Nat) (nowIso : String) : Except String TireAnalysisResult :=
  if preprocessOk = false then
    Except.error "Analysis failed: image preprocessing error"
  else if serverUp then
    match serverResp with
    | some res => Except.ok res
    | none => Except.error "Analysis failed: ML server error"
  else
    Except.ok (mockAnalysis rng imageSize nowIso)

/-! ## `getLearningStats` and claim C9 -/

/-- The stats record returned by `getLearningStats` (the two ISO-date
fields are kept as timestamps). -/
structure LearningStats where
  totalSamples : Nat
  totalImages : Nat
  userFeedbackCount : Nat
  expertValidations : Nat
  averageUserRating : ℚ
  lastRetraining : ℤ
  nextRetraining : ℤ
  samplesUntilRetrain : Nat
  deriving Repr, DecidableEq

/-- `ContinuousLearningSystem.getLearningStats`: count `.json` label
files and `.jpg`/`.jpeg` images, accumulate ratings over samples with a
truthy `userRating`, count truthy `expertValidation` flags, and divide
the rating sum by the rating count only when it is positive.
`samplesUntilRetrain` is `Math.max(0, minSamplesForRetrain − samples)`,
which Nat subtraction performs directly. -/
def getLearningStats (cfg : CLConfig) (st : CLState) : LearningStats :=
  let samples := st.labels.filter (fun p => strEndsWith p.1 ".json")
  let images := st.images.filter
    (fun p => strEndsWith p.1 ".jpg" || strEndsWith p.1 ".jpeg")
  let acc := samples.foldl
    (fun (a : Nat × ℚ × Nat) p =>
      let a1 := if jsTruthyNum p.2.userRating then
          (a.1 + 1, a.2.1 + p.2.userRating.getD 0, a.2.2)
        else a
      if jsTruthyBool p.2.expertValidation then (a1.1, a1.2.1, a1.2.2 + 1)
      else a1)
    (0, 0, 0)
  let avgUserRating := if 0 < acc.1 then acc.2.1 / (acc.1 : ℚ) else 0
  { totalSamples := samples.length,
    totalImages := images.length,
    userFeedbackCount := acc.1,
    expertValidations := acc.2.2,
    averageUserRating := avgUserRating,
    lastRetraining := st.lastRetrain,
    nextRetraining := st.lastRetrain + cfg.retrainInterval,
    samplesUntilRetrain := cfg.minSamplesForRetrain - samples.length }

/-- Claim C9: `getLearningStats` on the empty sample store returns all
five aggregate fields as zero (and, being a total function of the state,
does not throw). -/
theorem getLearningStats_empty_store :
    (getLearningStats defaultCLConfig emptyCLState).totalSamples = 0 ∧
    (getLearningStats defaultCLConfig emptyCLState).totalImages = 0 ∧
    (getLearningStats defaultCLConfig emptyCLState).userFeedbackCount = 0 ∧
    (getLearningStats defaultCLConfig emptyCLState).expertValidations = 0 ∧
    (getLearningStats defaultCLConfig emptyCLState).averageUserRating = 0 := by
  decide

/-! ## `onPhotoCaptured` and claim C10 -/

/-- The tire record looked up via Prisma (only its `vehicleId` is used). -/
structure Tire where
  vehicleId : String
  deriving Repr, DecidableEq

/-- `ContinuousLearningSystem.onPhotoCaptured(tireId, imageFile,
userContext)`: resize and write the image (a processing failure is
rethrown), look up the tire (a missing tire logs an error and returns
`undefined` — the image file stays on disk), analyse the image (`none`
models a caught analysis failure → empty labels), write the label file,
and finally run an unforced retraining check. `tires` is the tire table;
`sampleId` stands for the generated timestamp-random id. -/
def onPhotoCaptured (cfg : CLConfig) (st : CLState)
    (tires : List (String × Tire)) (now : ℤ) (nowIso : String)
    (tireId : String) (sampleId : String) (sharpOk : Bool)
    (analysisResult : Option TireAnalysisResult)
    (lighting angle : Option String) :
    Except String (CLState × Option TrainingSample) :=
  if sharpOk = false then
    Except.error "Continuous learning capture failed: image processing error"
  else
    let st1 := { st with images := st.images ++
      [(sampleId ++ ".jpg", { width := 224, height := 224 })] }
    match fsRead tireId tires with
    | none => Except.ok (st1, none)
    | some tire =>
      let sample : TrainingSample :=
        { id := sampleId,
          imagePath := "images/" ++ sampleId ++ ".jpg",
          tireId := tireId,
          vehicleId := tire.vehicleId,
          labels := match analysisResult with
            | some a => { treadDepth := some a.treadDepth.value,
                          condition := some a.condition.label,
                          wearPattern := some a.wearPattern.pattern,
                          confidence := some a.condition.confidence }
            | none => {},
          metadata := { capturedAt := nowIso,
                        lighting := lighting.getD "unknown",
                        angle := angle.getD "unknown" } }
      let st2 := { st1 with labels := st1.labels ++
        [(sampleId ++ ".json", sample)] }
      Except.ok ((checkRetrainingTrigger cfg st2 now false).1, some sample)

/-- Claim C10: capturing a photo for an unknown tire id still writes the
resized 224×224 image file, writes no label file, raises no error, and
returns no training sample. -/
theorem onPhotoCaptured_unknown_tire (cfg : CLConfig) (st : CLState)
    (tires : List (String × Tire)) (now : ℤ) (nowIso : String)
    (tireId sampleId : String) (analysisResult : Option TireAnalysisResult)
    (lighting angle : Option String)
    (htire : fsRead tireId tires = none) :
    onPhotoCaptured cfg st tires now nowIso tireId sampleId true
        analysisResult lighting angle =
      Except.ok ({ st with images := st.images ++
        [(sampleId ++ ".jpg", { width := 224, height := 224 })] }, none) := by
  unfold onPhotoCaptured
  rw [if_neg (by decide : ¬((true : Bool) = false))]
  simp only [htire]

/-- Witness for C10: capture against an empty tire table. -/
theorem onPhotoCaptured_unknown_tire_witness :
    fsRead "t9" ([] : List (String × Tire)) = none ∧
    onPhotoCaptured defaultCLConfig emptyCLState [] 0 "iso" "t9" "s9" true
        none none none =
      Except.ok ({ emptyCLState with images := emptyCLState.images ++
        [("s9" ++ ".jpg", { width := 224, height := 224 })] }, none) :=
  ⟨rfl, onPhotoCaptured_unknown_tire defaultCLConfig emptyCLState [] 0 "iso"
    "t9" "s9" none none none rfl⟩

/-! ## Properties of `mockAnalysis` -/

/-- The sum of the values of a score mapping. -/
def sumScores (l : List (String × ℚ)) : ℚ := (l.map Prod.snd).sum

/-- The normalisation total of the mock score object. -/
def mockTotal (idx : Fin 5) (rand : Fin 5 → ℚ) : ℚ :=
  ((mockRawScores idx rand).map Prod.snd).sum

/-- The five condition labels are pairwise distinct. -/
theorem condLabel_inj : ∀ i j : Fin 5, condLabel i = condLabel j → i = j := by
  decide

/-- Looking up the key of index `idx` in a label-indexed object built
over a list of indices containing `idx` returns `idx`'s value. -/
theorem fsRead_keymap {β : Type} (v : Fin 5 → β) (idx : Fin 5) :
    ∀ l : List (Fin 5), idx ∈ l →
      fsRead (condLabel idx) (l.map (fun i => (condLabel i, v i))) =
        some (v idx) := by
  intro l
  induction l with
  | nil => intro h; cases h
  | cons hd tl ih =>
      intro hmem
      by_cases he : hd = idx
      · subst he
        simp [fsRead]
      · have hk : ¬(condLabel hd = condLabel idx) :=
          fun hkey => he (condLabel_inj _ _ hkey)
        rcases List.mem_cons.mp hmem with h1 | h1
        · exact absurd h1.symm he
        · simpa [fsRead, hk] using ih h1

/-- A successful lookup means the pair is in the object. -/
theorem fsRead_mem {α : Type} (k : String) (v : α) :
    ∀ l : List (String × α), fsRead k l = some v → (k, v) ∈ l := by
  intro l
  induction l with
  | nil => intro h; cases h
  | cons hd tl ih =>
      obtain ⟨a, b⟩ := hd
      intro h
      by_cases ha : a = k
      · subst ha
        have hb : b = v := by simpa [fsRead] using h
        subst hb
        exact List.mem_cons_self _ _
      · simp only [fsRead, if_neg ha] at h
        exact List.mem_cons_of_mem _ (ih h)

/-- Raw mock scores are nonnegative when the draws are. -/
theorem rawCondScore_nonneg (idx : Fin 5) (rand : Fin 5 → ℚ) (i : Fin 5)
    (h0 : 0 ≤ rand i) : 0 ≤ rawCondScore idx rand i := by
  unfold rawCondScore
  split_ifs
  · nlinarith
  · nlinarith

/-- The drawn label's raw score is at least 0.6. -/
theorem rawCondScore_chosen_ge (idx : Fin 5) (rand : Fin 5 → ℚ)
    (h0 : 0 ≤ rand idx) : (0.6 : ℚ) ≤ rawCondScore idx rand idx := by
  unfold rawCondScore
  rw [if_pos rfl]
  nlinarith

/-- Every raw mock score is at most the drawn label's raw score. -/
theorem rawCondScore_le_chosen (idx : Fin 5) (rand : Fin 5 → ℚ) (i : Fin 5)
    (hb : ∀ j, 0 ≤ rand j ∧ rand j < 1) :
    rawCondScore idx rand i ≤ rawCondScore idx rand idx := by
  unfold rawCondScore
  rw [if_pos rfl]
  split_ifs with h
  · subst h; exact le_refl _
  · have h1 := (hb i).1
    have h2 := (hb i).2
    have h3 := (hb idx).1
    nlinarith

/-- The drawn label's raw score is a summand of the total. -/
theorem rawCondScore_chosen_mem (idx : Fin 5) (rand : Fin 5 → ℚ) :
    rawCondScore idx rand idx ∈ (mockRawScores idx rand).map Prod.snd := by
  unfold mockRawScores
  rw [List.map_map]
  exact List.mem_map.mpr ⟨idx, List.mem_finRange idx, rfl⟩

/-- Every summand of the mock total is a raw score. -/
theorem mockTotal_summands (idx : Fin 5) (rand : Fin 5 → ℚ) (y : ℚ)
    (hy : y ∈ (mockRawScores idx rand).map Prod.snd) :
    ∃ i, y = rawCondScore idx rand i := by
  unfold mockRawScores at hy
  rw [List.map_map] at hy
  obtain ⟨i, -, hi⟩ := List.mem_map.mp hy
  exact ⟨i, hi.symm⟩

/-- The mock normalisation total is at least 0.6, in particular
positive. -/
theorem mockTotal_pos (idx : Fin 5) (rand : Fin 5 → ℚ)
    (hb : ∀ j, 0 ≤ rand j ∧ rand j < 1) : 0 < mockTotal idx rand := by
  have hnn : ∀ y ∈ (mockRawScores idx rand).map Prod.snd, 0 ≤ y := by
    intro y hy
    obtain ⟨i, rfl⟩ := mockTotal_summands idx rand y hy
    exact rawCondScore_nonneg idx rand i (hb i).1
  have hle := List.single_le_sum hnn _ (rawCondScore_chosen_mem idx rand)
  have hge := rawCondScore_chosen_ge idx rand (hb idx).1
  unfold mockTotal
  linarith

/-- The drawn label's raw score is at most the total. -/
theorem rawCondScore_chosen_le_total (idx : Fin 5) (rand : Fin 5 → ℚ)
    (hb : ∀ j, 0 ≤ rand j ∧ rand j < 1) :
    rawCondScore idx rand idx ≤ mockTotal idx rand := by
  have hnn : ∀ y ∈ (mockRawScores idx rand).map Prod.snd, 0 ≤ y := by
    intro y hy
    obtain ⟨i, rfl⟩ := mockTotal_summands idx rand y hy
    exact rawCondScore_nonneg idx rand i (hb i).1
  exact List.single_le_sum hnn _ (rawCondScore_chosen_mem idx rand)

/-- The normalised mock scores, as a map over the index list. -/
theorem mockScores_eq_keymap (idx : Fin 5) (rand : Fin 5 → ℚ) :
    (generateMockCondition idx rand).scores =
      (List.finRange 5).map
        (fun i => (condLabel i,
          rawCondScore idx rand i / mockTotal idx rand)) := by
  show (mockRawScores idx rand).map
      (fun p => (p.1, p.2 / mockTotal idx rand)) = _
  unfold mockRawScores
  rw [List.map_map]
  rfl

/-- The mock confidence is the drawn label's normalised score. -/
theorem generateMockCondition_confidence (idx : Fin 5) (rand : Fin 5 → ℚ) :
    (generateMockCondition idx rand).confidence =
      rawCondScore idx rand idx / mockTotal idx rand := by
  have h1 : (generateMockCondition idx rand).confidence =
      (fsRead (condLabel idx)
        ((List.finRange 5).map
          (fun i => (condLabel i,
            rawCondScore idx rand i / mockTotal idx rand)))).getD 0 := by
    rw [← mockScores_eq_keymap]
    rfl
  rw [h1, fsRead_keymap _ idx (List.finRange 5) (List.mem_finRange idx)]
  rfl

/-- Division of a sum distributes over a mapped list. -/
theorem sum_map_div {α : Type} (l : List α) (f : α → ℚ) (T : ℚ) :
    (l.map (fun i => f i / T)).sum = (l.map f).sum / T := by
  induction l with
  | nil => simp
  | cons hd tl ih => simp [ih, add_div]

/-- The normalised mock scores sum to exactly 1. -/
theorem generateMockCondition_sum (idx : Fin 5) (rand : Fin 5 → ℚ)
    (hb : ∀ j, 0 ≤ rand j ∧ rand j < 1) :
    sumScores (generateMockCondition idx rand).scores = 1 := by
  unfold sumScores
  rw [mockScores_eq_keymap]
  rw [List.map_map]
  have hmap : ((List.finRange 5).map
      (Prod.snd ∘ fun i => (condLabel i,
        rawCondScore idx rand i / mockTotal idx rand))) =
      (List.finRange 5).map
        (fun i => rawCondScore idx rand i / mockTotal idx rand) := rfl
  rw [hmap, sum_map_div]
  have hT : mockTotal idx rand ≠ 0 := ne_of_gt (mockTotal_pos idx rand hb)
  have hTot : ((List.finRange 5).map
      (fun i => rawCondScore idx rand i)).sum = mockTotal idx rand := by
    unfold mockTotal mockRawScores
    rw [List.map_map]
    rfl
  rw [hTot]
  exact div_self hT

/-- The mock confidence lies in `[0, 1]`. -/
theorem generateMockCondition_conf_bounds (idx : Fin 5) (rand : Fin 5 → ℚ)
    (hb : ∀ j, 0 ≤ rand j ∧ rand j < 1) :
    0 ≤ (generateMockCondition idx rand).confidence ∧
      (generateMockCondition idx rand).confidence ≤ 1 := by
  rw [generateMockCondition_confidence]
  have hT := mockTotal_pos idx rand hb
  constructor
  · exact div_nonneg (rawCondScore_nonneg idx rand idx (hb idx).1) (le_of_lt hT)
  · exact (div_le_one hT).mpr (rawCondScore_chosen_le_total idx rand hb)

/-- Claim C5: with the inference endpoint unreachable (failed liveness
probe) and a decodable image, `analyze` does not raise: it returns the
mock analysis, whose three confidence fields all lie in `[0, 1]` (and
whose fields are all populated, by construction of the result record). -/
theorem analyze_unreachable_returns_mock (rng : MockRng) (imageSize : Nat)
    (nowIso : String) (serverResp : Option TireAnalysisResult)
    (hb : ∀ i, 0 ≤ rng.condRand i ∧ rng.condRand i < 1)
    (ht : 0 ≤ rng.treadConfRand ∧ rng.treadConfRand < 1)
    (hw : 0 ≤ rng.wearConfRand ∧ rng.wearConfRand < 1) :
    mlAnalyzeTireImage true false serverResp rng imageSize nowIso =
      Except.ok (mockAnalysis rng imageSize nowIso) ∧
    (0 ≤ (mockAnalysis rng imageSize nowIso).treadDepth.confidence ∧
      (mockAnalysis rng imageSize nowIso).treadDepth.confidence ≤ 1) ∧
    (0 ≤ (mockAnalysis rng imageSize nowIso).condition.confidence ∧
      (mockAnalysis rng imageSize nowIso).condition.confidence ≤ 1) ∧
    (0 ≤ (mockAnalysis rng imageSize nowIso).wearPattern.confidence ∧
      (mockAnalysis rng imageSize nowIso).wearPattern.confidence ≤ 1) := by
  refine ⟨rfl, ⟨?_, ?_⟩, ?_, ⟨?_, ?_⟩⟩
  · show 0 ≤ 0.75 + rng.treadConfRand * 0.2
    nlinarith [ht.1]
  · show 0.75 + rng.treadConfRand * 0.2 ≤ 1
    nlinarith [ht.2]
  · exact generateMockCondition_conf_bounds rng.condIndex rng.condRand hb
  · show 0 ≤ 0.7 + rng.wearConfRand * 0.25
    nlinarith [hw.1]
  · show 0.7 + rng.wearConfRand * 0.25 ≤ 1
    nlinarith [hw.2]

/-- A concrete random tape for the mock-analysis witnesses. -/
def wRng : MockRng :=
  { condIndex := 0, condRand := fun _ => 0, treadRand := 0,
    treadConfRand := 0, wearIndex := 0, wearConfRand := 0, sevIndex := 0 }

/-- Witness for C5 on the concrete random tape `wRng`. -/
theorem analyze_unreachable_returns_mock_witness :
    ((∀ i, 0 ≤ wRng.condRand i ∧ wRng.condRand i < 1) ∧
      (0 ≤ wRng.treadConfRand ∧ wRng.treadConfRand < 1) ∧
      (0 ≤ wRng.wearConfRand ∧ wRng.wearConfRand < 1)) ∧
    (mlAnalyzeTireImage true false none wRng 12345 "iso" =
      Except.ok (mockAnalysis wRng 12345 "iso") ∧
    (0 ≤ (mockAnalysis wRng 12345 "iso").treadDepth.confidence ∧
      (mockAnalysis wRng 12345 "iso").treadDepth.confidence ≤ 1) ∧
    (0 ≤ (mockAnalysis wRng 12345 "iso").condition.confidence ∧
      (mockAnalysis wRng 12345 "iso").condition.confidence ≤ 1) ∧
    (0 ≤ (mockAnalysis wRng 12345 "iso").wearPattern.confidence ∧
      (mockAnalysis wRng 12345 "iso").wearPattern.confidence ≤ 1)) :=
  ⟨⟨by decide, by decide, by decide⟩,
    analyze_unreachable_returns_mock wRng 12345 "iso" none
      (by decide) (by decide) (by decide)⟩

/-! ## Claim C2: numeric semantics of analysis results -/

/-- The spec's `1e-6` tolerance on the score sum. -/
def tol : ℚ := mkRat 1 1000000

/-- The mock tread depth lies in `[0, 10]` (in fact in `[1, 10]`). -/
theorem generateMockTreadDepth_bounds (r : ℚ) (h0 : 0 ≤ r) (h1 : r < 1) :
    0 ≤ generateMockTreadDepth r ∧ generateMockTreadDepth r ≤ 10 := by
  unfold generateMockTreadDepth jsRound
  constructor
  · have hfl : (100 : ℤ) ≤ ⌊(1 + r * 9) * 100 + 1/2⌋ := by
      rw [Int.le_floor]
      push_cast
      nlinarith
    have hq : ((100 : ℤ) : ℚ) ≤ (⌊(1 + r * 9) * 100 + 1/2⌋ : ℚ) := by
      exact_mod_cast hfl
    push_cast at hq
    linarith
  · have hfl : ⌊(1 + r * 9) * 100 + 1/2⌋ < 1001 := by
      rw [Int.floor_lt]
      push_cast
      nlinarith
    have hle : ⌊(1 + r * 9) * 100 + 1/2⌋ ≤ 1000 := by omega
    have hq : (⌊(1 + r * 9) * 100 + 1/2⌋ : ℚ) ≤ ((1000 : ℤ) : ℚ) := by
      exact_mod_cast hle
    push_cast at hq
    linarith

/-- The seed of a left max-fold is below the fold. -/
theorem le_foldl_max (a : ℚ) : ∀ xs : List ℚ, a ≤ xs.foldl max a
  | [] => le_refl a
  | x :: xs => le_trans (le_max_left a x) (le_foldl_max (max a x) xs)

/-- Every member of a list is below its left max-fold. -/
theorem foldl_max_le_of_mem (x : ℚ) (xs : List ℚ) :
    ∀ a : ℚ, x ∈ xs → x ≤ xs.foldl max a := by
  induction xs with
  | nil => intro a h; cases h
  | cons y ys ih =>
      intro a h
      rcases List.mem_cons.mp h with h1 | h1
      · subst h1
        exact le_trans (le_max_right a x) (le_foldl_max (max a x) ys)
      · exact ih (max a y) h1

/-- A left max-fold is the seed or a member. -/
theorem foldl_max_mem (xs : List ℚ) :
    ∀ a : ℚ, xs.foldl max a = a ∨ xs.foldl max a ∈ xs := by
  induction xs with
  | nil => intro a; exact Or.inl rfl
  | cons x xs ih =>
      intro a
      rw [List.foldl_cons]
      rcases ih (max a x) with h | h
      · rcases max_choice a x with hm | hm
        · left; rw [h, hm]
        · right; rw [h, hm]; exact List.mem_cons_self _ _
      · right; exact List.mem_cons_of_mem _ h

/-- `Math.max(...l)` is a member of a non-empty `l`. -/
theorem jsMaxList_mem (l : List ℚ) (h : l ≠ []) : jsMaxList l ∈ l := by
  match l with
  | [] => exact absurd rfl h
  | x :: xs =>
      show xs.foldl max x ∈ x :: xs
      rcases foldl_max_mem xs x with h1 | h1
      · rw [h1]; exact List.mem_cons_self _ _
      · exact List.mem_cons_of_mem _ h1

/-- `Math.max(...l)` dominates every member of `l`. -/
theorem le_jsMaxList (l : List ℚ) (x : ℚ) (hx : x ∈ l) : x ≤ jsMaxList l := by
  match l with
  | [] => cases hx
  | y :: ys =>
      show x ≤ ys.foldl max y
      rcases List.mem_cons.mp hx with h1 | h1
      · subst h1; exact le_foldl_max x ys
      · exact foldl_max_le_of_mem x ys y h1

/-- Reading the array at `indexOf(m)` gives back `m` when `m` occurs. -/
theorem jsIndexOf_getD (l : List ℚ) (m : ℚ) (hm : m ∈ l) :
    l.getD (jsIndexOf l m) 0 = m := by
  induction l with
  | nil => cases hm
  | cons x xs ih =>
      unfold jsIndexOf at ih ⊢
      rw [List.findIdx_cons]
      by_cases hx : x = m
      · have hbeq : (x == m) = true := beq_iff_eq.mpr hx
        rw [hbeq]
        simpa using hx
      · have hbeq : (x == m) = false := beq_eq_false_iff_ne.mpr hx
        rw [hbeq]
        rcases List.mem_cons.mp hm with h1 | h1
        · exact absurd h1.symm hx
        · simpa [List.getD_cons_succ] using ih h1

/-- `indexOf(m)` is in bounds when `m` occurs. -/
theorem jsIndexOf_lt_length (l : List ℚ) (m : ℚ) (hm : m ∈ l) :
    jsIndexOf l m < l.length := by
  induction l with
  | nil => cases hm
  | cons x xs ih =>
      unfold jsIndexOf at ih ⊢
      rw [List.findIdx_cons]
      by_cases hx : x = m
      · have hbeq : (x == m) = true := beq_iff_eq.mpr hx
        rw [hbeq]
        simp
      · have hbeq : (x == m) = false := beq_eq_false_iff_ne.mpr hx
        rw [hbeq]
        rcases List.mem_cons.mp hm with h1 | h1
        · exact absurd h1.symm hx
        · simpa using ih h1

/-- The server's condition block: the reported pair is the maximal score
entry, its key is the reported label, and the score mapping carries the
raw classifier outputs (so their sum is the raw output sum). -/
theorem serverCondition_props (craw : Fin 5 → ℚ) :
    (((serverCondition craw).label, (serverCondition craw).confidence) ∈
        (serverCondition craw).scores) ∧
    (∀ p ∈ (serverCondition craw).scores,
        p.2 ≤ (serverCondition craw).confidence) ∧
    sumScores (serverCondition craw).scores = (List.ofFn craw).sum := by
  have hne : List.ofFn craw ≠ [] := by
    intro h
    have hlen := congrArg List.length h
    simp at hlen
  have hmem := jsMaxList_mem (List.ofFn craw) hne
  have hlt : jsIndexOf (List.ofFn craw) (jsMaxList (List.ofFn craw)) < 5 := by
    have h := jsIndexOf_lt_length (List.ofFn craw) _ hmem
    simpa using h
  have hconf : (serverCondition craw).confidence =
      jsMaxList (List.ofFn craw) := by
    show (List.ofFn craw).getD
      (jsIndexOf (List.ofFn craw) (jsMaxList (List.ofFn craw))) 0 = _
    exact jsIndexOf_getD _ _ hmem
  refine ⟨?_, ?_, ?_⟩
  · exact List.mem_map.mpr
      ⟨⟨jsIndexOf (List.ofFn craw) (jsMaxList (List.ofFn craw)), hlt⟩,
        List.mem_finRange _, rfl⟩
  · intro p hp
    obtain ⟨i, -, rfl⟩ := List.mem_map.mp hp
    rw [hconf]
    apply le_jsMaxList
    have hi : i.val < (List.ofFn craw).length := by
      simp [i.isLt]
    show (List.ofFn craw).getD i.val 0 ∈ List.ofFn craw
    rw [List.getD_eq_getElem _ _ hi]
    exact List.getElem_mem hi
  · show sumScores ((List.finRange 5).map
      (fun i => (condLabel i, (List.ofFn craw).getD i.val 0))) = _
    unfold sumScores
    rw [List.map_map]
    have hpt : ((List.finRange 5).map
        (Prod.snd ∘ fun i => (condLabel i, (List.ofFn craw).getD i.val 0))) =
        (List.finRange 5).map craw := by
      apply List.map_congr_left
      intro i _
      have hi : i.val < (List.ofFn craw).length := by
        simp [i.isLt]
      show (List.ofFn craw).getD i.val 0 = craw i
      rw [List.getD_eq_getElem _ _ hi, List.getElem_ofFn]
    rw [hpt, ← List.ofFn_eq_map]

/-- Claim C2: on the mock path, tread depth lies in `[0, 10]`, the score
mapping sums to 1 within the 1e-6 tolerance, and the reported confidence
with the reported label is a maximal entry of the score mapping; on the
model-backed path (both models loaded), the tread depth is clamped to
`[0, 10]` whatever the raw regression output, the score mapping carries
the softmax outputs (sum within tolerance by the softmax-sum hypothesis)
and label/confidence form a maximal entry. -/
theorem analyze_numeric_semantics (rng : MockRng) (imageSize : Nat)
    (nowIso : String) (traw : ℚ) (craw : Fin 5 → ℚ)
    (hb : ∀ i, 0 ≤ rng.condRand i ∧ rng.condRand i < 1)
    (htr : 0 ≤ rng.treadRand ∧ rng.treadRand < 1)
    (hsum : |(List.ofFn craw).sum - 1| ≤ tol) :
    (0 ≤ (mockAnalysis rng imageSize nowIso).treadDepth.value ∧
      (mockAnalysis rng imageSize nowIso).treadDepth.value ≤ 10) ∧
    |sumScores (mockAnalysis rng imageSize nowIso).condition.scores - 1|
        ≤ tol ∧
    (((mockAnalysis rng imageSize nowIso).condition.label,
        (mockAnalysis rng imageSize nowIso).condition.confidence) ∈
      (mockAnalysis rng imageSize nowIso).condition.scores) ∧
    (∀ p ∈ (mockAnalysis rng imageSize nowIso).condition.scores,
      p.2 ≤ (mockAnalysis rng imageSize nowIso).condition.confidence) ∧
    (0 ≤ (serverTreadDepth traw).value ∧ (serverTreadDepth traw).value ≤ 10) ∧
    |sumScores (serverCondition craw).scores - 1| ≤ tol ∧
    (((serverCondition craw).label, (serverCondition craw).confidence) ∈
      (serverCondition craw).scores) ∧
    (∀ p ∈ (serverCondition craw).scores,
      p.2 ≤ (serverCondition craw).confidence) := by
  have hcond : (mockAnalysis rng imageSize nowIso).condition =
      generateMockCondition rng.condIndex rng.condRand := rfl
  have hserver := serverCondition_props craw
  refine ⟨?_, ?_, ?_, ?_, ?_, ?_, hserver.1, hserver.2.1⟩
  · exact generateMockTreadDepth_bounds rng.treadRand htr.1 htr.2
  · rw [hcond, generateMockCondition_sum rng.condIndex rng.condRand hb]
    have h0 : |(1 : ℚ) - 1| = 0 := by norm_num
    rw [h0]
    decide
  · rw [hcond, generateMockCondition_confidence]
    apply fsRead_mem
    rw [mockScores_eq_keymap]
    exact fsRead_keymap _ rng.condIndex (List.finRange 5)
      (List.mem_finRange rng.condIndex)
  · intro p hp
    rw [hcond] at hp ⊢
    rw [mockScores_eq_keymap] at hp
    obtain ⟨i, -, rfl⟩ := List.mem_map.mp hp
    rw [generateMockCondition_confidence]
    exact (div_le_div_iff_of_pos_right
        (mockTotal_pos rng.condIndex rng.condRand hb)).mpr
      (rawCondScore_le_chosen rng.condIndex rng.condRand i hb)
  · constructor
    · exact le_max_left 0 _
    · exact max_le (by norm_num) (min_le_left 10 traw)
  · rw [hserver.2.2]
    exact hsum

/-- A concrete softmax-style output vector for the C2 witness. -/
def wCraw : Fin 5 → ℚ := fun i => if i = 0 then 1 else 0

/-- Witness for C2 on the zero random tape, a raw regression output of 99
(clamped to 10) and the one-hot classifier output `wCraw`. -/
theorem analyze_numeric_semantics_witness :
    ((∀ i, 0 ≤ wRng.condRand i ∧ wRng.condRand i < 1) ∧
      (0 ≤ wRng.treadRand ∧ wRng.treadRand < 1) ∧
      |(List.ofFn wCraw).sum - 1| ≤ tol) ∧
    ((0 ≤ (mockAnalysis wRng 77 "iso").treadDepth.value ∧
      (mockAnalysis wRng 77 "iso").treadDepth.value ≤ 10) ∧
    |sumScores (mockAnalysis wRng 77 "iso").condition.scores - 1| ≤ tol ∧
    (((mockAnalysis wRng 77 "iso").condition.label,
        (mockAnalysis wRng 77 "iso").condition.confidence) ∈
      (mockAnalysis wRng 77 "iso").condition.scores) ∧
    (∀ p ∈ (mockAnalysis wRng 77 "iso").condition.scores,
      p.2 ≤ (mockAnalysis wRng 77 "iso").condition.confidence) ∧
    (0 ≤ (serverTreadDepth 99).value ∧ (serverTreadDepth 99).value ≤ 10) ∧
    |sumScores (serverCondition wCraw).scores - 1| ≤ tol ∧
    (((serverCondition wCraw).label, (serverCondition wCraw).confidence) ∈
      (serverCondition wCraw).scores) ∧
    (∀ p ∈ (serverCondition wCraw).scores,
      p.2 ≤ (serverCondition wCraw).confidence)) :=
  ⟨⟨by decide, by decide, by with_unfolding_all decide⟩,
    analyze_numeric_semantics wRng 77 "iso" 99 wCraw (by decide) (by decide)
      (by with_unfolding_all decide)⟩

/-! ## `calculatePrecision` / `calculateRecall` (`scripts/evaluate-models.js`)
and claim C6 -/

/-- A confusion-matrix row: predicted label ↦ count. -/
abbrev ConfusionRow := List (String × Nat)

/-- A confusion matrix: actual label ↦ row. -/
abbrev ConfusionMatrix := List (String × ConfusionRow)

/-- The inner loop's `truePositives`: the row entry whose predicted
label equals the actual label (assignment semantics — last matching key
wins, keys are unique in a JS object). -/
def rowTruePositives (actual : String) (row : ConfusionRow) : Nat :=
  row.foldl (fun tp p => if p.1 = actual then p.2 else tp) 0

/-- The inner loop's `predictedPositives`: the row total. -/
def rowPredictedPositives (row : ConfusionRow) : Nat :=
  row.foldl (fun pp p => pp + p.2) 0

/-- The recall loop's `actualPositives`: the column total of a label,
skipping falsy (absent or zero) entries. -/
def colActualPositives (cm : ConfusionMatrix) (actual : String) : Nat :=
  cm.foldl (fun ap e =>
    let v := (fsRead actual e.2).getD 0
    if v ≠ 0 then ap + v else ap) 0

/-- One step of `calculatePrecision`'s class loop: accumulate
`tp/pp` and bump the class count only when `predictedPositives > 0`. -/
def precStep (acc : ℚ × Nat) (e : String × ConfusionRow) : ℚ × Nat :=
  let tp := rowTruePositives e.1 e.2
  let pp := rowPredictedPositives e.2
  if 0 < pp then (acc.1 + (tp : ℚ) / (pp : ℚ), acc.2 + 1) else acc

/-- `ModelEvaluator.calculatePrecision`. -/
def calculatePrecision (cm : ConfusionMatrix) : ℚ :=
  let acc := cm.foldl precStep (0, 0)
  if 0 < acc.2 then acc.1 / (acc.2 : ℚ) else 0

/-- One step of `calculateRecall`'s class loop: accumulate `tp/ap` and
bump the class count only when `actualPositives > 0`. -/
def recStep (cm : ConfusionMatrix) (acc : ℚ × Nat) (e : String × ConfusionRow) :
    ℚ × Nat :=
  let tp := rowTruePositives e.1 e.2
  let ap := colActualPositives cm e.1
  if 0 < ap then (acc.1 + (tp : ℚ) / (ap : ℚ), acc.2 + 1) else acc

/-- `ModelEvaluator.calculateRecall`. -/
def calculateRecall (cm : ConfusionMatrix) : ℚ :=
  let acc := cm.foldl (recStep cm) (0, 0)
  if 0 < acc.2 then acc.1 / (acc.2 : ℚ) else 0

/-- Division that fails instead of dividing by zero, to witness that the
metric computations never do. -/
def checkedDiv (x y : ℚ) : Option ℚ := if y = 0 then none else some (x / y)

/-- `precStep` with every division checked. -/
def precStepChecked (acc : Option (ℚ × Nat)) (e : String × ConfusionRow) :
    Option (ℚ × Nat) :=
  acc.bind fun a =>
    let tp := rowTruePositives e.1 e.2
    let pp := rowPredictedPositives e.2
    if 0 < pp then
      (checkedDiv (tp : ℚ) (pp : ℚ)).map (fun q => (a.1 + q, a.2 + 1))
    else some a

/-- `calculatePrecision` with every division checked. -/
def calculatePrecisionChecked (cm : ConfusionMatrix) : Option ℚ :=
  (cm.foldl precStepChecked (some (0, 0))).bind fun a =>
    if 0 < a.2 then checkedDiv a.1 (a.2 : ℚ) else some 0

/-- `recStep` with every division checked. -/
def recStepChecked (cm : ConfusionMatrix) (acc : Option (ℚ × Nat))
    (e : String × ConfusionRow) : Option (ℚ × Nat) :=
  acc.bind fun a =>
    let tp := rowTruePositives e.1 e.2
    let ap := colActualPositives cm e.1
    if 0 < ap then
      (checkedDiv (tp : ℚ) (ap : ℚ)).map (fun q => (a.1 + q, a.2 + 1))
    else some a

/-- `calculateRecall` with every division checked. -/
def calculateRecallChecked (cm : ConfusionMatrix) : Option ℚ :=
  (cm.foldl (recStepChecked cm) (some (0, 0))).bind fun a =>
    if 0 < a.2 then checkedDiv a.1 (a.2 : ℚ) else some 0

/-- Modelled from the claim's words, not from the source: macro-averaged
precision in which a class with zero predicted occurrences contributes a
zero term to the average taken over all classes. -/
def specReadMacroPrecision (cm : ConfusionMatrix) : ℚ :=
  ((cm.map (fun e =>
      let tp := rowTruePositives e.1 e.2
      let pp := rowPredictedPositives e.2
      if 0 < pp then (tp : ℚ) / (pp : ℚ) else 0)).sum) / (cm.length : ℚ)

/-- The checked precision fold never fails. -/
theorem foldl_precStepChecked (cm : ConfusionMatrix) :
    ∀ a : ℚ × Nat,
      cm.foldl precStepChecked (some a) = some (cm.foldl precStep a) := by
  induction cm with
  | nil => intro a; rfl
  | cons e tl ih =>
      intro a
      rw [List.foldl_cons, List.foldl_cons]
      have hstep : precStepChecked (some a) e = some (precStep a e) := by
        by_cases hpp : 0 < rowPredictedPositives e.2
        · have hne : ((rowPredictedPositives e.2 : ℚ)) ≠ 0 :=
            Nat.cast_ne_zero.mpr (Nat.pos_iff_ne_zero.mp hpp)

          simp [precStepChecked, precStep, checkedDiv, hpp, hne]
        · simp [precStepChecked, precStep, hpp]
      rw [hstep]
      exact ih (precStep a e)

/-- The checked recall fold never fails. -/
theorem foldl_recStepChecked (cm cm0 : ConfusionMatrix) :
    ∀ a : ℚ × Nat,
      cm.foldl (recStepChecked cm0) (some a) =
        some (cm.foldl (recStep cm0) a) := by
  induction cm with
  | nil => intro a; rfl
  | cons e tl ih =>
      intro a
      rw [List.foldl_cons, List.foldl_cons]
      have hstep : recStepChecked cm0 (some a) e = some (recStep cm0 a e) := by
        by_cases hap : 0 < colActualPositives cm0 e.1
        · have hne : ((colActualPositives cm0 e.1 : ℚ)) ≠ 0 :=
            Nat.cast_ne_zero.mpr (Nat.pos_iff_ne_zero.mp hap)
          simp [recStepChecked, recStep, checkedDiv, hap, hne]
        · simp [recStepChecked, recStep, hap]
      rw [hstep]
      exact ih (recStep cm0 a e)

/-- The final checked average agrees with the unchecked one. -/
theorem checkedFinal (a : ℚ × Nat) :
    ((some a).bind fun x => if 0 < x.2 then checkedDiv x.1 (x.2 : ℚ)
        else some 0) =
      some (if 0 < a.2 then a.1 / (a.2 : ℚ) else 0) := by
  by_cases hc : 0 < a.2
  · have hne : ((a.2 : ℚ)) ≠ 0 :=
      Nat.cast_ne_zero.mpr (Nat.pos_iff_ne_zero.mp hc)
    show (if 0 < a.2 then checkedDiv a.1 (a.2 : ℚ) else some 0) = _
    rw [if_pos hc, if_pos hc]
    unfold checkedDiv
    rw [if_neg hne]
  · show (if 0 < a.2 then checkedDiv a.1 (a.2 : ℚ) else some 0) = _
    rw [if_neg hc, if_neg hc]

/-- Claim C6 as amended: on every confusion matrix, neither macro metric
ever divides by zero (the fully checked computations succeed and agree
with the unchecked ones), and a class with zero predicted occurrences is
skipped — excluded from both the ratio sum and the class count — so
appending such a class leaves the macro precision unchanged (rather than
contributing a zero term to an average over all classes). -/
theorem evaluation_division_safe (cm : ConfusionMatrix) (cls : String)
    (row : ConfusionRow) (hrow : rowPredictedPositives row = 0) :
    calculatePrecisionChecked cm = some (calculatePrecision cm) ∧
    calculateRecallChecked cm = some (calculateRecall cm) ∧
    calculatePrecision (cm ++ [(cls, row)]) = calculatePrecision cm := by
  refine ⟨?_, ?_, ?_⟩
  · unfold calculatePrecisionChecked calculatePrecision
    rw [foldl_precStepChecked cm (0, 0)]
    exact checkedFinal _
  · unfold calculateRecallChecked calculateRecall
    rw [foldl_recStepChecked cm cm (0, 0)]
    exact checkedFinal _
  · unfold calculatePrecision
    rw [List.foldl_append]
    have hstep : precStep (cm.foldl precStep (0, 0)) (cls, row) =
        cm.foldl precStep (0, 0) := by
      unfold precStep
      rw [show rowPredictedPositives (cls, row).2 = 0 from hrow]
      rfl
    rw [List.foldl_cons, List.foldl_nil, hstep]

/-- The two-class confusion matrix refuting the claim's reading: class
"good" has one correct prediction, class "poor" has an all-zero row
(zero `predictedPositives`, in the code's own terms). -/
def cexCM : ConfusionMatrix :=
  [("good", [("good", 1), ("poor", 0)]),
   ("poor", [("good", 0), ("poor", 0)])]

/-- Counterexample to C6 as stated: on `cexCM` the code's macro
precision is 1 (the zero-denominator class is excluded from the
average), while a zero contribution to the macro average over all
classes would give 1/2. -/
theorem macro_average_cex :
    rowPredictedPositives [("good", 0), ("poor", 0)] = 0 ∧
    calculatePrecision cexCM = 1 ∧
    specReadMacroPrecision cexCM = mkRat 1 2 ∧
    calculatePrecision cexCM ≠ specReadMacroPrecision cexCM := by
  refine ⟨by decide, ?_, ?_, ?_⟩ <;> with_unfolding_all decide

/-- Witness for the amended C6 on `cexCM` and an appended all-zero
class. -/
theorem evaluation_division_safe_witness :
    rowPredictedPositives [("good", 0), ("poor", 0)] = 0 ∧
    (calculatePrecisionChecked cexCM = some (calculatePrecision cexCM) ∧
      calculateRecallChecked cexCM = some (calculateRecall cexCM) ∧
      calculatePrecision (cexCM ++ [("bald", [("good", 0), ("poor", 0)])]) =
        calculatePrecision cexCM) :=
  ⟨by decide, evaluation_division_safe cexCM "bald"
    [("good", 0), ("poor", 0)] (by decide)⟩

/-! ## `runFullPipeline` (`scripts/mlops-pipeline.js`) and claim C7 -/

/-- The six pipeline phases. -/
inductive PipelinePhase
  | dataCollection
  | dataLabeling
  | modelTraining
  | modelEvaluation
  | modelDeployment
  | monitoringSetup
  deriving Repr, DecidableEq

/-- The `eventType` each phase logs. -/
def phaseEventType : PipelinePhase → String
  | .dataCollection => "data_collection"
  | .dataLabeling => "data_labeling"
  | .modelTraining => "model_training"
  | .modelEvaluation => "model_evaluation"
  | .modelDeployment => "model_deployment"
  | .monitoringSetup => "monitoring_setup"

/-- One line of the newline-delimited `mlops-pipeline.log`. -/
structure PipelineEvent where
  eventType : String
  status : String
  deriving Repr, DecidableEq

/-- The environment of one pipeline run: whether each phase's work (its
spawned script / deployment / timer setup) succeeds. -/
structure PipelineEnv where
  scriptOk : PipelinePhase → Bool

/-- Pipeline run state: which phases attempted their work, and the
append-only event log. -/
structure PipelineState where
  executed : List PipelinePhase
  eventLog : List PipelineEvent
  deriving Repr, DecidableEq

/-- One `runX()` phase method: attempt the phase's work, catch any
failure, and append a success or failed event — never rethrow. -/
def runPhase (env : PipelineEnv) (st : PipelineState) (p : PipelinePhase) :
    PipelineState :=
  { executed := st.executed ++ [p],
    eventLog := st.eventLog ++
      [{ eventType := phaseEventType p,
         status := if env.scriptOk p then "success" else "failed" }] }

/-- The phase order of `runFullPipeline`. -/
def pipelinePhases : List PipelinePhase :=
  [.dataCollection, .dataLabeling, .modelTraining, .modelEvaluation,
   .modelDeployment, .monitoringSetup]

/-- `MLOpsPipeline.runFullPipeline`: run the six phases in order (each
catching its own failures) and log the completion event. -/
def runFullPipeline (env : PipelineEnv) : PipelineState :=
  let st := pipelinePhases.foldl (runPhase env)
    { executed := [], eventLog := [] }
  { st with eventLog := st.eventLog ++
      [{ eventType := "pipeline_complete", status := "success" }] }

/-- Claim C7: whatever succeeds or fails, `runFullPipeline` attempts all
six phases in their fixed order, and the event log consists of exactly
one appended event per phase in that order — `success` or `failed`
according to that phase's outcome — so no phase failure prevents a later
phase from running. -/
theorem runFullPipeline_best_effort (env : PipelineEnv) :
    (runFullPipeline env).executed = pipelinePhases ∧
    (runFullPipeline env).eventLog =
      pipelinePhases.map (fun p =>
        { eventType := phaseEventType p,
          status := if env.scriptOk p then "success" else "failed" }) ++
      [{ eventType := "pipeline_complete", status := "success" }] := by
  constructor <;> rfl

end TireMonitor
